import Mathlib

/-!
Verification development for the `recon_dns` repository (`src/recon.py`).

The program is a DNS-reconnaissance pipeline: it normalizes a target domain,
queries the root domain's DNS records, builds a candidate-subdomain set from a
built-in list / wordlist / certificate-transparency (crt.sh) fetch, resolves
every candidate, keeps the live ones, optionally HTTP-probes them, and emits a
report (printed and optionally as JSON).

Shallow embedding conventions:
- a Python `str` is a `PyStr := List Nat` of Unicode code points
  (`toPy` injects Lean string literals);
- the DNS resolver, the crt.sh HTTP response and the HTTP-probe outcomes are
  oracles / explicit response values passed in, so every network effect is a
  pure input;
- Python `set` is a duplicate-free `List PyStr` built with `setAdd`;
- the JSON document written by `json.dump(results, ...)` is the `Json` tree
  built by `mainResults` (Python dicts preserve insertion order, as do the
  association lists here).
-/

/-- A Python string, modelled as its list of Unicode code points. -/
abbrev PyStr := List Nat

/-- Inject a Lean string literal into the `PyStr` model. -/
def toPy (s : String) : PyStr := s.data.map Char.toNat

/-- The code points Python's `str.strip()` removes: exactly those for which
`str.isspace()` is true — the ASCII whitespace `\t\n\v\f\r` and space, the
file/group/record/unit separators `\x1c`-`\x1f`, next line `\x85`, no-break
space `\xa0`, ogham space mark U+1680, the U+2000-U+200A spaces, line and
paragraph separators U+2028/U+2029, narrow no-break space U+202F, medium
mathematical space U+205F, and ideographic space U+3000. -/
def isPySpace (c : Nat) : Bool :=
  (9 ≤ c && c ≤ 13) || (28 ≤ c && c ≤ 32) || c = 133 || c = 160 || c = 5760 ||
  (8192 ≤ c && c ≤ 8202) || c = 8232 || c = 8233 || c = 8239 || c = 8287 || c = 12288

/-- Python `str.strip()`: drop leading and trailing whitespace. -/
def pyStrip (s : PyStr) : PyStr := ((s.dropWhile isPySpace).reverse.dropWhile isPySpace).reverse

/-- Python `str.lower()` on one code point (ASCII letter range). -/
def pyLowerChar (c : Nat) : Nat := if 65 ≤ c ∧ c ≤ 90 then c + 32 else c

/-- Python `str.lower()`. -/
def pyLower (s : PyStr) : PyStr := s.map pyLowerChar

/-- Python `str.rstrip(".")`: drop every trailing dot (code point 46). -/
def pyRstripDots (s : PyStr) : PyStr := (s.reverse.dropWhile (fun c => c == 46)).reverse

/-- Python `str.splitlines()` (restricted to the `\n`, `\r\n`, `\r`
terminators that occur in crt.sh `name_value` fields). -/
def pySplitLines : PyStr → List PyStr
  | [] => []
  | 13 :: 10 :: rest => [] :: pySplitLines rest
  | 10 :: rest => [] :: pySplitLines rest
  | 13 :: rest => [] :: pySplitLines rest
  | c :: rest =>
    match pySplitLines rest with
    | [] => [[c]]
    | line :: more => (c :: line) :: more

/-- Python string comparison `a <= b` (lexicographic on code points), the
order used by `sorted(candidates)` in `main`. -/
def lexLe : PyStr → PyStr → Bool
  | [], _ => true
  | _ :: _, [] => false
  | a :: as, b :: bs => if a < b then true else if b < a then false else lexLe as bs

/-- `recon.py` line 104: `domain = args.domain.strip().lower().rstrip(".")`. -/
def normalizeDomain (raw : PyStr) : PyStr := pyRstripDots (pyLower (pyStrip raw))

/-- The DNS record types the script queries. -/
inductive RType
  | A
  | AAAA
  | CNAME
  | TXT
  | NS
  | MX
  | SOA
  deriving DecidableEq

/-- Outcome of one `resolver.resolve(name, rtype)` call: either an exception
(timeout, NXDOMAIN, SERVFAIL, malformed answer, resolver exhaustion, ...) or a
list of answers rendered by `str(a)` before the script strips them. -/
inductive DnsOutcome
  | failure
  | answers (vals : List PyStr)
  deriving DecidableEq

/-- The external resolver, as a pure oracle from `(name, rtype)` to outcome. -/
abbrev DnsOracle := PyStr → RType → DnsOutcome

/-- `dns_query` (recon.py lines 20-30): one typed query; every exception is
caught and mapped to the empty list, successes are `str(a).strip()` per answer. -/
def dns_query (oracle : DnsOracle) (name : PyStr) (rtype : RType) : List PyStr :=
  match oracle name rtype with
  | DnsOutcome.failure => []
  | DnsOutcome.answers vals => vals.map pyStrip

/-- `resolve_host` (recon.py lines 33-39): the per-candidate record dict, with
keys `A`, `AAAA`, `CNAME`, `TXT` in that insertion order. -/
def resolve_host (oracle : DnsOracle) (host : PyStr) : List (RType × List PyStr) :=
  [(RType.A, dns_query oracle host RType.A),
   (RType.AAAA, dns_query oracle host RType.AAAA),
   (RType.CNAME, dns_query oracle host RType.CNAME),
   (RType.TXT, dns_query oracle host RType.TXT)]

/-- The root-domain record dict built in `main` (recon.py lines 108-115), keys
`NS`, `MX`, `SOA`, `TXT`, `A`, `AAAA` in that insertion order. -/
def rootRecords (oracle : DnsOracle) (domain : PyStr) : List (RType × List PyStr) :=
  [(RType.NS, dns_query oracle domain RType.NS),
   (RType.MX, dns_query oracle domain RType.MX),
   (RType.SOA, dns_query oracle domain RType.SOA),
   (RType.TXT, dns_query oracle domain RType.TXT),
   (RType.A, dns_query oracle domain RType.A),
   (RType.AAAA, dns_query oracle domain RType.AAAA)]

/-- Keys of a record dict, in insertion order. -/
def dictKeys (d : List (RType × List PyStr)) : List RType := d.map Prod.fst

/-- Dict lookup `rec[k]` on a record dict. -/
def dictGet (d : List (RType × List PyStr)) (k : RType) : List PyStr :=
  match d.find? (fun p => p.1 == k) with
  | some p => p.2
  | none => []

/-- One entry of the crt.sh JSON array: either a record whose
`row.get("name_value", "")` yields a string, or a malformed record on which
that attribute access raises (e.g. a non-dict element). -/
inductive CrtRow
  | valid (name_value : PyStr)
  | malformed

/-- The crt.sh HTTP exchange: `requests.get` raising, or a response with a
status code and a body (`none` when `r.json()` raises on malformed JSON). -/
inductive CrtResponse
  | netFailure
  | response (status : Nat) (body : Option (List CrtRow))

/-- Python `set.add`: append only if absent (membership is what matters). -/
def setAdd (s : List PyStr) (x : PyStr) : List PyStr := if x ∈ s then s else s ++ [x]

/-- crt.sh name normalization (recon.py lines 59-61): strip, lower-case, and
remove one leading `*.` wildcard marker if present. -/
def crtNormalizeName (rawName : PyStr) : PyStr :=
  if (pyLower (pyStrip rawName)).take 2 = [42, 46] then (pyLower (pyStrip rawName)).drop 2
  else pyLower (pyStrip rawName)

/-- The subtree guard of recon.py line 62:
`name.endswith("." + domain.lower()) or name == domain.lower()`. -/
def crtKeep (domain name : PyStr) : Bool :=
  (46 :: pyLower domain).isSuffixOf name || name == pyLower domain

/-- Process one line of a `name_value` field (recon.py lines 58-63). -/
def crtAddName (domain : PyStr) (subs : List PyStr) (rawName : PyStr) : List PyStr :=
  if crtKeep domain (crtNormalizeName rawName) then setAdd subs (crtNormalizeName rawName)
  else subs

/-- Process one crt.sh row: split its `name_value` into lines and add each. -/
def crtAddRow (domain : PyStr) (subs : List PyStr) (nv : PyStr) : List PyStr :=
  (pySplitLines nv).foldl (crtAddName domain) subs

/-- The `for row in data` loop of `fetch_crtsh`: a malformed row raises, the
exception is caught by the surrounding `except`, and the subs accumulated so
far are returned. -/
def crtProcessRows (domain : PyStr) : List CrtRow → List PyStr → List PyStr
  | [], subs => subs
  | CrtRow.malformed :: _, subs => subs
  | CrtRow.valid nv :: rest, subs => crtProcessRows domain rest (crtAddRow domain subs nv)

/-- `fetch_crtsh` (recon.py lines 42-66). -/
def fetch_crtsh (domain : PyStr) (resp : CrtResponse) : List PyStr :=
  match resp with
  | CrtResponse.netFailure => []
  | CrtResponse.response status body =>
    if status ≠ 200 then []
    else
      match body with
      | none => []
      | some rows => crtProcessRows domain rows []

/-- Outcome of one `requests.head(url, allow_redirects=True, ...)` call:
final status and final URL, or an exception with its class name. -/
inductive ProbeOutcome
  | ok (status : Nat) (finalUrl : PyStr)
  | exn (excName : PyStr)
  deriving DecidableEq

/-- The external HTTP capability, as a pure oracle from the request URL. -/
abbrev HttpOracle := PyStr → ProbeOutcome

/-- The URL `f"{scheme}://{host}"` built in `http_probe`. -/
def probeUrl (scheme host : PyStr) : PyStr := scheme ++ toPy (r"://") ++ host

/-- The per-scheme result string of `http_probe` (recon.py lines 77-80):
`f"{r.status_code} -> {r.url}"` on success, `f"ERR ({type(e).__name__})"`
on any exception. -/
def probeResultStr (out : ProbeOutcome) : PyStr :=
  match out with
  | ProbeOutcome.ok status finalUrl => toPy (Nat.repr status) ++ toPy (r" -> ") ++ finalUrl
  | ProbeOutcome.exn excName => toPy (r"ERR (") ++ excName ++ toPy (r")")

/-- `http_probe` (recon.py lines 69-81): HEAD over https then http, one result
string per scheme, failures isolated per scheme. -/
def http_probe (oracle : HttpOracle) (host : PyStr) : List (PyStr × PyStr) :=
  [toPy (r"https"), toPy (r"http")].map
    (fun scheme => (scheme, probeResultStr (oracle (probeUrl scheme host))))

/-- Lookup of one scheme's result in an `http_probe` result dict. -/
def probeGet (results : List (PyStr × PyStr)) (scheme : PyStr) : Option PyStr :=
  (results.find? (fun p => p.1 == scheme)).map Prod.snd

/-- `load_wordlist` (recon.py lines 84-92), applied to the file's lines:
strip each line, skip blanks and `#` comments. -/
def load_wordlist (lines : List PyStr) : List PyStr :=
  lines.filterMap (fun line =>
    match pyStrip line with
    | [] => none
    | c :: cs => if c = 35 then none else some (c :: cs))

/-- `DEFAULT_SUBS` (recon.py lines 11-15). -/
def DEFAULT_SUBS : List PyStr :=
  ([r"www", r"mail", r"owa", r"vpn", r"remote", r"portal", r"admin", r"api", r"dev",
    r"test", r"stage", r"staging", r"prod", r"beta", r"static", r"cdn", r"assets",
    r"blog", r"docs", r"help", r"support", r"ns1", r"ns2", r"autodiscover", r"m",
    r"webmail", r"smtp", r"imap", r"pop", r"ftp", r"git", r"jira", r"confluence"] :
    List String).map toPy

/-- One invocation of `main`: the command-line inputs plus the observed
behavior of the external DNS, crt.sh and HTTP collaborators. -/
structure RunInput where
  rawDomain : PyStr
  wordlistLines : Option (List PyStr)
  no_crt : Bool
  probe : Bool
  dnsOracle : DnsOracle
  crtResponse : CrtResponse
  httpOracle : HttpOracle

/-- `base = load_wordlist(args.wordlist) if args.wordlist else DEFAULT_SUBS`
(recon.py line 121). -/
def mainBase (inp : RunInput) : List PyStr :=
  match inp.wordlistLines with
  | some lines => load_wordlist lines
  | none => DEFAULT_SUBS

/-- The candidate set of `main` (recon.py lines 118-127): built-in list or
wordlist words joined as `f"{s}.{domain}"`, unioned with the crt.sh set
unless `--no-crt`. -/
def mainCandidates (inp : RunInput) : List PyStr :=
  let domain := normalizeDomain inp.rawDomain
  let cands := (mainBase inp).foldl (fun acc s => setAdd acc (s ++ 46 :: domain)) []
  if inp.no_crt then cands else (fetch_crtsh domain inp.crtResponse).foldl setAdd cands

/-- `has_any = any(rec[k] for k in ("A", "AAAA", "CNAME"))` (recon.py line 132). -/
def hasLiveRecord (recs : List (RType × List PyStr)) : Bool :=
  !(dictGet recs RType.A).isEmpty || !(dictGet recs RType.AAAA).isEmpty ||
    !(dictGet recs RType.CNAME).isEmpty

/-- The JSON values `json.dump` writes for the `results` dict. -/
inductive Json
  | str (s : PyStr)
  | arr (elems : List Json)
  | obj (fields : List (PyStr × Json))

/-- Top-level keys of a JSON object, in insertion order. -/
def Json.keys : Json → List PyStr
  | Json.obj fields => fields.map Prod.fst
  | _ => []

/-- Field lookup in a JSON object. -/
def Json.getField : Json → PyStr → Option Json
  | Json.obj fields, k => (fields.find? (fun p => p.1 == k)).map Prod.snd
  | _, _ => none

/-- Is this JSON value a string? -/
def Json.isStrVal : Json → Bool
  | Json.str _ => true
  | _ => false

/-- Is this JSON value an array of strings? -/
def Json.isStrArr : Json → Bool
  | Json.arr elems => elems.all Json.isStrVal
  | _ => false

/-- Is this JSON value an object mapping keys to arrays of strings
(the shape of a serialized record dict)? -/
def Json.isRecordsObj : Json → Bool
  | Json.obj fields => fields.all (fun p => Json.isStrArr p.2)
  | _ => false

/-- Printable name of a record type (the dict keys of `recon.py`). -/
def rtypeName : RType → PyStr
  | RType.A => toPy (r"A")
  | RType.AAAA => toPy (r"AAAA")
  | RType.CNAME => toPy (r"CNAME")
  | RType.TXT => toPy (r"TXT")
  | RType.NS => toPy (r"NS")
  | RType.MX => toPy (r"MX")
  | RType.SOA => toPy (r"SOA")

/-- JSON serialization of a record dict. -/
def recordsJson (recs : List (RType × List PyStr)) : Json :=
  Json.obj (recs.map (fun p => (rtypeName p.1, Json.arr (p.2.map Json.str))))

/-- JSON serialization of an `http_probe` result dict. -/
def httpJson (results : List (PyStr × PyStr)) : Json :=
  Json.obj (results.map (fun p => (p.1, Json.str p.2)))

/-- The loop body of recon.py lines 130-139 for one candidate: resolve it and
build its `{"records": ..., "http"?: ...}` entry, or drop it when none of
A/AAAA/CNAME is non-empty. -/
def subdomainEntry (inp : RunInput) (host : PyStr) : Option (PyStr × Json) :=
  if hasLiveRecord (resolve_host inp.dnsOracle host) then
    some (host, Json.obj
      ((toPy (r"records"), recordsJson (resolve_host inp.dnsOracle host)) ::
        (if inp.probe then [(toPy (r"http"), httpJson (http_probe inp.httpOracle host))]
         else [])))
  else none

/-- The `results["subdomains"]` dict: candidates iterated in
`sorted(candidates)` order, dropped unless live (recon.py lines 130-139). -/
def mainSubdomains (inp : RunInput) : List (PyStr × Json) :=
  ((mainCandidates inp).mergeSort lexLe).filterMap (subdomainEntry inp)

/-- The full `results` dict as serialized by `json.dump` (recon.py lines
105, 108-115, 130-139, 164-166): keys `domain`, `root`, `dns`, `subdomains`
in creation order; `results["dns"]` is initialized to `{}` on line 105 and
never written again. -/
def mainResults (inp : RunInput) : Json :=
  let domain := normalizeDomain inp.rawDomain
  Json.obj [(toPy (r"domain"), Json.str domain),
            (toPy (r"root"), recordsJson (rootRecords inp.dnsOracle domain)),
            (toPy (r"dns"), Json.obj []),
            (toPy (r"subdomains"), Json.obj (mainSubdomains inp))]

/-! ### Basic lemmas about the set and ordering primitives -/

theorem mem_setAdd {s : List PyStr} {x y : PyStr} : x ∈ setAdd s y ↔ x ∈ s ∨ x = y := by
  unfold setAdd
  split
  · rename_i h
    constructor
    · exact Or.inl
    · rintro (hx | rfl)
      · exact hx
      · exact h
  · simp

theorem nodup_setAdd {s : List PyStr} (h : s.Nodup) (y : PyStr) : (setAdd s y).Nodup := by
  unfold setAdd
  split
  · exact h
  · rename_i hy
    simpa using List.Nodup.append h (List.nodup_singleton y) (by simpa using hy)

theorem mem_foldl_setAdd {x : PyStr} : ∀ (l : List PyStr) (init : List PyStr),
    x ∈ l.foldl setAdd init ↔ x ∈ init ∨ x ∈ l := by
  intro l
  induction l with
  | nil => simp
  | cons a l ih =>
    intro init
    simp only [List.foldl_cons, ih, mem_setAdd, List.mem_cons]
    tauto

theorem nodup_foldl_setAdd : ∀ (l : List PyStr) (init : List PyStr),
    init.Nodup → (l.foldl setAdd init).Nodup := by
  intro l
  induction l with
  | nil => intro init h; simpa using h
  | cons a l ih =>
    intro init h
    exact ih (setAdd init a) (nodup_setAdd h a)

theorem lexLe_total : ∀ (a b : PyStr), (lexLe a b || lexLe b a) = true := by
  intro a
  induction a with
  | nil => intro b; simp [lexLe]
  | cons x xs ih =>
    intro b
    cases b with
    | nil => simp [lexLe]
    | cons y ys =>
      simp only [lexLe]
      by_cases hxy : x < y
      · simp [hxy]
      · by_cases hyx : y < x
        · simp [hyx, hxy]
        · simpa [hxy, hyx] using ih ys

theorem lexLe_trans : ∀ (a b c : PyStr),
    lexLe a b = true → lexLe b c = true → lexLe a c = true := by
  intro a
  induction a with
  | nil => intro b c _ _; rfl
  | cons x xs ih =>
    intro b c hab hbc
    cases b with
    | nil => simp [lexLe] at hab
    | cons y ys =>
      cases c with
      | nil => simp [lexLe] at hbc
      | cons z zs =>
        simp only [lexLe] at hab hbc ⊢
        by_cases hxy : x < y
        · by_cases hyz : y < z
          · simp [show x < z by omega]
          · by_cases hzy : z < y
            · simp [hyz, hzy] at hbc
            · have hyz' : y = z := by omega
              subst hyz'
              simp [hxy]
        · by_cases hyx : y < x
          · simp [hxy, hyx] at hab
          · have hxy' : x = y := by omega
            subst hxy'
            by_cases hxz : x < z
            · simp [hxz]
            · by_cases hzx : z < x
              · simp [hxz, hzx] at hbc
              · simp at hab
                simp [hxz, hzx] at hbc ⊢
                exact ih ys zs hab hbc

theorem dictGet_resolve_host (o : DnsOracle) (host : PyStr) :
    dictGet (resolve_host o host) RType.A = dns_query o host RType.A ∧
    dictGet (resolve_host o host) RType.AAAA = dns_query o host RType.AAAA ∧
    dictGet (resolve_host o host) RType.CNAME = dns_query o host RType.CNAME ∧
    dictGet (resolve_host o host) RType.TXT = dns_query o host RType.TXT := by
  refine ⟨rfl, rfl, rfl, rfl⟩

/-! ### Membership in the crt.sh candidate set -/

theorem mem_foldl_crtAddName {domain x : PyStr} :
    ∀ (lines : List PyStr) (subs : List PyStr),
      x ∈ lines.foldl (crtAddName domain) subs →
      x ∈ subs ∨ (∃ raw, x = crtNormalizeName raw ∧ crtKeep domain x = true) := by
  intro lines
  induction lines with
  | nil => intro subs h; exact Or.inl h
  | cons line rest ih =>
    intro subs h
    rcases ih (crtAddName domain subs line) h with h' | h'
    · unfold crtAddName at h'
      split at h'
      · rename_i hkeep
        rcases mem_setAdd.mp h' with h'' | rfl
        · exact Or.inl h''
        · exact Or.inr ⟨line, rfl, hkeep⟩
      · exact Or.inl h'
    · exact Or.inr h'

theorem mem_crtProcessRows {domain x : PyStr} :
    ∀ (rows : List CrtRow) (subs : List PyStr),
      x ∈ crtProcessRows domain rows subs →
      x ∈ subs ∨ (∃ raw, x = crtNormalizeName raw ∧ crtKeep domain x = true) := by
  intro rows
  induction rows with
  | nil => intro subs h; exact Or.inl h
  | cons row rest ih =>
    intro subs h
    cases row with
    | malformed => exact Or.inl h
    | valid nv =>
      rcases ih (crtAddRow domain subs nv) h with h' | h'
      · exact mem_foldl_crtAddName (pySplitLines nv) subs h'
      · exact Or.inr h'

theorem mem_fetch_crtsh {domain x : PyStr} {resp : CrtResponse}
    (h : x ∈ fetch_crtsh domain resp) :
    ∃ raw, x = crtNormalizeName raw ∧ crtKeep domain x = true := by
  rcases resp with _ | ⟨status, body⟩
  · simp [fetch_crtsh] at h
  · by_cases hs : status = 200
    · subst hs
      rcases body with _ | rows
      · simp [fetch_crtsh] at h
      · rw [show fetch_crtsh domain (CrtResponse.response 200 (some rows)) =
            crtProcessRows domain rows [] from rfl] at h
        rcases mem_crtProcessRows rows [] h with h' | h'
        · simp at h'
        · exact h'
    · simp [fetch_crtsh, hs] at h

/-! ### Lower-casing lemmas -/

theorem pyLowerChar_fixed_of_lower {c : Nat} (h : ¬ (65 ≤ c ∧ c ≤ 90)) :
    pyLowerChar c = c := by
  unfold pyLowerChar
  simp [h]

theorem pyLowerChar_idem (c : Nat) : pyLowerChar (pyLowerChar c) = pyLowerChar c := by
  by_cases h : 65 ≤ c ∧ c ≤ 90
  · have h2 : ¬ (65 ≤ c + 32 ∧ c + 32 ≤ 90) := by omega
    simp [pyLowerChar, h, h2]
    omega
  · simp [pyLowerChar, h]

theorem pyLower_idem (s : PyStr) : pyLower (pyLower s) = pyLower s := by
  unfold pyLower
  rw [List.map_map]
  exact List.map_congr_left (fun c _ => pyLowerChar_idem c)

theorem pyLowerChar_space (c : Nat) : isPySpace (pyLowerChar c) = isPySpace c := by
  by_cases h : 65 ≤ c ∧ c ≤ 90
  · have hc : isPySpace c = false := by simp [isPySpace]; omega
    have hc2 : isPySpace (c + 32) = false := by simp [isPySpace]; omega
    simp [pyLowerChar, h, hc, hc2]
  · simp [pyLowerChar, h]

theorem pyLowerChar_dot (c : Nat) : (pyLowerChar c == 46) = (c == 46) := by
  by_cases h : 65 ≤ c ∧ c ≤ 90
  · have h1 : (c + 32 == 46) = false := by simp; omega
    have h2 : (c == 46) = false := by simp; omega
    simp [pyLowerChar, h, h1, h2]
  · simp [pyLowerChar, h]

theorem pyLower_dropWhile_space (s : PyStr) :
    (pyLower s).dropWhile isPySpace = pyLower (s.dropWhile isPySpace) := by
  unfold pyLower
  rw [List.dropWhile_map]
  have hp : isPySpace ∘ pyLowerChar = isPySpace := funext pyLowerChar_space
  rw [hp]

theorem pyLower_reverse (s : PyStr) : (pyLower s).reverse = pyLower s.reverse := by
  unfold pyLower
  exact (List.map_reverse pyLowerChar s).symm

theorem pyLower_pyStrip (s : PyStr) : pyStrip (pyLower s) = pyLower (pyStrip s) := by
  unfold pyStrip
  rw [pyLower_dropWhile_space, pyLower_reverse, pyLower_dropWhile_space, pyLower_reverse]

theorem pyLower_pyRstripDots (s : PyStr) :
    pyRstripDots (pyLower s) = pyLower (pyRstripDots s) := by
  unfold pyRstripDots pyLower
  rw [← List.map_reverse, List.dropWhile_map, ← List.map_reverse]
  have hp : ((fun c => c == 46) ∘ pyLowerChar) = (fun c : Nat => c == 46) :=
    funext pyLowerChar_dot
  rw [hp]

theorem pyLower_normalizeDomain (raw : PyStr) :
    pyLower (normalizeDomain raw) = normalizeDomain raw := by
  unfold normalizeDomain
  rw [← pyLower_pyRstripDots, pyLower_idem, pyLower_pyRstripDots]

theorem pyLower_crtNormalizeName (raw : PyStr) :
    pyLower (crtNormalizeName raw) = crtNormalizeName raw := by
  have hfix : pyLower (pyLower (pyStrip raw)) = pyLower (pyStrip raw) := pyLower_idem _
  unfold crtNormalizeName
  split
  · calc pyLower ((pyLower (pyStrip raw)).drop 2)
        = (pyLower (pyLower (pyStrip raw))).drop 2 := List.map_drop pyLowerChar _ 2
      _ = (pyLower (pyStrip raw)).drop 2 := by rw [hfix]
  · exact hfix

/-! ### The candidate set and the subdomain loop -/

theorem mem_mainCandidates {inp : RunInput} {x : PyStr} (h : x ∈ mainCandidates inp) :
    (∃ s ∈ mainBase inp, x = s ++ 46 :: normalizeDomain inp.rawDomain) ∨
      x ∈ fetch_crtsh (normalizeDomain inp.rawDomain) inp.crtResponse := by
  have hbase : ∀ y, y ∈ (mainBase inp).foldl
      (fun acc s => setAdd acc (s ++ 46 :: normalizeDomain inp.rawDomain)) [] →
      ∃ s ∈ mainBase inp, y = s ++ 46 :: normalizeDomain inp.rawDomain := by
    intro y hy
    rw [← List.foldl_map (fun s => s ++ 46 :: normalizeDomain inp.rawDomain) setAdd
      (mainBase inp) []] at hy
    rcases (mem_foldl_setAdd _ _).mp hy with h' | h'
    · simp at h'
    · rcases List.mem_map.mp h' with ⟨s, hs, heq⟩
      exact ⟨s, hs, heq.symm⟩
  cases hnc : inp.no_crt with
  | true =>
    simp only [mainCandidates, hnc, if_true] at h
    exact Or.inl (hbase x h)
  | false =>
    simp only [mainCandidates, hnc, Bool.false_eq_true, if_false] at h
    rcases (mem_foldl_setAdd _ _).mp h with h' | h'
    · exact Or.inl (hbase x h')
    · exact Or.inr h'

theorem nodup_mainCandidates (inp : RunInput) : (mainCandidates inp).Nodup := by
  have h1 : ((mainBase inp).foldl
      (fun acc s => setAdd acc (s ++ 46 :: normalizeDomain inp.rawDomain)) []).Nodup := by
    rw [← List.foldl_map (fun s => s ++ 46 :: normalizeDomain inp.rawDomain) setAdd
      (mainBase inp) []]
    exact nodup_foldl_setAdd _ [] List.nodup_nil
  cases hnc : inp.no_crt with
  | true => simpa only [mainCandidates, hnc, if_true] using h1
  | false =>
    simp only [mainCandidates, hnc, Bool.false_eq_true, if_false]
    exact nodup_foldl_setAdd _ _ h1

theorem map_fst_filterMap_subdomainEntry (inp : RunInput) :
    ∀ (l : List PyStr),
      (l.filterMap (subdomainEntry inp)).map Prod.fst =
        l.filter (fun h => hasLiveRecord (resolve_host inp.dnsOracle h)) := by
  intro l
  induction l with
  | nil => rfl
  | cons a l ih =>
    by_cases hc : hasLiveRecord (resolve_host inp.dnsOracle a) = true
    · simp [subdomainEntry, hc, List.filterMap_cons, List.filter_cons, ih]
    · simp [subdomainEntry, hc, List.filterMap_cons, List.filter_cons, ih]

/-- An invocation used as concrete test input: domain `example.com`, a one-word
wordlist `www`, crt.sh disabled, probing disabled, and a resolver that answers
only the A query for `www.example.com`. -/
def liveOracle : DnsOracle := fun host rt =>
  match rt with
  | RType.A =>
    if host == toPy (r"www.example.com") then DnsOutcome.answers [toPy (r"93.184.216.34")]
    else DnsOutcome.failure
  | _ => DnsOutcome.failure

def exampleInput : RunInput :=
  ⟨toPy (r"example.com"), some [toPy (r"www")], true, false, liveOracle,
   CrtResponse.netFailure, fun _ => ProbeOutcome.exn (toPy (r"ConnectionError"))⟩

/-- C1: a candidate hostname appears as a key of the report's `subdomains`
mapping if and only if its resolved record set has a non-empty list for at
least one of the record types A, AAAA, CNAME; candidates with all three empty
are silently omitted (recon.py lines 130-139). -/
theorem recon_subdomains_mem_iff_live (inp : RunInput) (host : PyStr)
    (hc : host ∈ mainCandidates inp) :
    host ∈ (mainSubdomains inp).map Prod.fst ↔
      hasLiveRecord (resolve_host inp.dnsOracle host) = true := by
  unfold mainSubdomains
  rw [map_fst_filterMap_subdomainEntry, List.mem_filter]
  constructor
  · exact fun h => h.2
  · exact fun h => ⟨List.mem_mergeSort.mpr hc, h⟩

/-- Witness for C1 at a concrete input: `www.example.com` is a candidate, its
A record resolves, and it indeed appears among the subdomain keys. -/
theorem recon_subdomains_mem_iff_live_witness :
    toPy (r"www.example.com") ∈ (mainSubdomains exampleInput).map Prod.fst :=
  (recon_subdomains_mem_iff_live exampleInput (toPy (r"www.example.com"))
    (by decide)).mpr (by decide)

/-- C6: the keys of the report's `subdomains` mapping are in ascending lexical
order (Python string order, i.e. code-point lexicographic) and contain no
duplicate, for every candidate set: `main` iterates `sorted(candidates)` and
inserts in that order (recon.py line 130). -/
theorem recon_subdomains_sorted (inp : RunInput) :
    List.Pairwise (fun a b => lexLe a b = true) ((mainSubdomains inp).map Prod.fst) ∧
      ((mainSubdomains inp).map Prod.fst).Nodup := by
  unfold mainSubdomains
  rw [map_fst_filterMap_subdomainEntry]
  constructor
  · exact List.Pairwise.sublist (List.filter_sublist _)
      (List.sorted_mergeSort lexLe_trans lexLe_total (mainCandidates inp))
  · exact List.Nodup.sublist (List.filter_sublist _)
      ((List.mergeSort_perm (mainCandidates inp) lexLe).nodup_iff.mpr
        (nodup_mainCandidates inp))

/-! ### Claims about the DNS resolution engine -/

/-- C7: a single DNS query that fails (timeout, NXDOMAIN, SERVFAIL, malformed
answer, resolver exhaustion — any exception of the resolver) yields the empty
list for that record type and never raises (the embedding of `dns_query` is
total); within `resolve_host` each record type's entry depends only on its own
query, and the whole entry of any other host depends only on that host's
queries, so one failing query aborts neither sibling queries nor other hosts
(recon.py lines 20-30). -/
theorem dns_query_failure_isolated (o o' : DnsOracle) (name : PyStr) (t : RType) :
    (o name t = DnsOutcome.failure → dns_query o name t = []) ∧
    (o name t = o' name t →
      dictGet (resolve_host o name) t = dictGet (resolve_host o' name) t) ∧
    (∀ host, (∀ t', o host t' = o' host t') → resolve_host o host = resolve_host o' host) := by
  refine ⟨?_, ?_, ?_⟩
  · intro h
    unfold dns_query
    rw [h]
  · intro h
    have hq : dns_query o name t = dns_query o' name t := by
      unfold dns_query
      rw [h]
    cases t
    case A => exact hq
    case AAAA => exact hq
    case CNAME => exact hq
    case TXT => exact hq
    case NS => rfl
    case MX => rfl
    case SOA => rfl
  · intro host hagree
    unfold resolve_host dns_query
    rw [hagree RType.A, hagree RType.AAAA, hagree RType.CNAME, hagree RType.TXT]

/-- Witness for C7 at a concrete input: with a resolver that fails the AAAA
query of `www.example.com`, that record type is empty while changing an
unrelated oracle entry leaves the A entry untouched. -/
theorem dns_query_failure_isolated_witness :
    dns_query liveOracle (toPy (r"www.example.com")) RType.AAAA = [] :=
  (dns_query_failure_isolated liveOracle liveOracle (toPy (r"www.example.com"))
    RType.AAAA).1 (by decide)

/-- C2 as stated is false: `resolve_host` also queries TXT for every subdomain
candidate, so the key set of `resolve(h)` is not `A, AAAA, CNAME` only
(recon.py line 38). -/
theorem resolve_host_keys_not_three :
    RType.TXT ∈ dictKeys (resolve_host (fun _ _ => DnsOutcome.failure)
        (toPy (r"www.example.com"))) ∧
      dictKeys (resolve_host (fun _ _ => DnsOutcome.failure) (toPy (r"www.example.com"))) ≠
        [RType.A, RType.AAAA, RType.CNAME] := by
  constructor
  · decide
  · decide

/-- C2 (corrected): for every hostname, `resolve(h)` returns a record dict
whose keys are exactly A, AAAA, CNAME, TXT (in that order), while NS, MX and
SOA are queried only for the root domain, whose record dict has exactly the
keys NS, MX, SOA, TXT, A, AAAA (recon.py lines 33-39 and 108-115). -/
theorem resolve_host_key_sets (o : DnsOracle) (host domain : PyStr) :
    dictKeys (resolve_host o host) = [RType.A, RType.AAAA, RType.CNAME, RType.TXT] ∧
    dictKeys (rootRecords o domain) =
      [RType.NS, RType.MX, RType.SOA, RType.TXT, RType.A, RType.AAAA] ∧
    RType.NS ∉ dictKeys (resolve_host o host) ∧
    RType.MX ∉ dictKeys (resolve_host o host) ∧
    RType.SOA ∉ dictKeys (resolve_host o host) := by
  refine ⟨rfl, rfl, ?_, ?_, ?_⟩ <;>
    · rw [show dictKeys (resolve_host o host) =
          [RType.A, RType.AAAA, RType.CNAME, RType.TXT] from rfl]
      decide

/-! ### Claims about the crt.sh fetcher -/

theorem crtProcessRows_append_malformed (domain : PyStr) (rest : List CrtRow) :
    ∀ (rows : List CrtRow) (subs : List PyStr),
      crtProcessRows domain (rows ++ CrtRow.malformed :: rest) subs =
        crtProcessRows domain rows subs := by
  intro rows
  induction rows with
  | nil => intro subs; rfl
  | cons row tl ih =>
    intro subs
    cases row with
    | malformed => rfl
    | valid nv => exact ih (crtAddRow domain subs nv)

/-- C3 as stated is false: when a parse failure occurs after some records were
already processed, `fetch_crtsh` returns the names accumulated so far, not an
empty set — the `except` clause only does `pass` and the function still
returns the partially filled `subs` (recon.py lines 49-66). Concretely, a 200
response whose first row is valid and whose second row is malformed yields a
singleton set. -/
theorem fetch_crtsh_partial_on_midstream_failure :
    fetch_crtsh (toPy (r"example.com"))
        (CrtResponse.response 200
          (some [CrtRow.valid (toPy (r"a.example.com")), CrtRow.malformed])) =
      [toPy (r"a.example.com")] ∧
    fetch_crtsh (toPy (r"example.com"))
        (CrtResponse.response 200
          (some [CrtRow.valid (toPy (r"a.example.com")), CrtRow.malformed])) ≠ [] := by
  constructor
  · decide
  · decide

/-- C3 (corrected): `fetch_crtsh` never raises (it is a total function of the
observed response); a network failure, a non-200 status, or a JSON body that
fails to parse — all failures occurring before any record is processed —
yield the empty set; a failure hitting row processing midway instead returns
exactly the names accumulated from the rows before the malformed one. -/
theorem fetch_crtsh_failure_behavior (domain : PyStr) (status : Nat)
    (body : Option (List CrtRow)) (rows rest : List CrtRow) :
    (fetch_crtsh domain CrtResponse.netFailure = []) ∧
    (status ≠ 200 → fetch_crtsh domain (CrtResponse.response status body) = []) ∧
    (fetch_crtsh domain (CrtResponse.response 200 none) = []) ∧
    (fetch_crtsh domain (CrtResponse.response 200 (some (rows ++ CrtRow.malformed :: rest))) =
      fetch_crtsh domain (CrtResponse.response 200 (some rows))) := by
  refine ⟨rfl, ?_, rfl, ?_⟩
  · intro h
    simp [fetch_crtsh, h]
  · rw [show fetch_crtsh domain (CrtResponse.response 200
        (some (rows ++ CrtRow.malformed :: rest))) =
        crtProcessRows domain (rows ++ CrtRow.malformed :: rest) [] from rfl,
      crtProcessRows_append_malformed]
    rfl

/-- Witness for C3 (corrected) at a concrete input: a 404 response yields the
empty set. -/
theorem fetch_crtsh_failure_behavior_witness :
    fetch_crtsh (toPy (r"example.com")) (CrtResponse.response 404 (some [])) = [] :=
  (fetch_crtsh_failure_behavior (toPy (r"example.com")) 404 (some []) [] []).2.1 (by decide)

/-- C4 as stated is false: the wildcard marker is stripped only once, so a raw
CT name `*.*.example.com` yields the collected name `*.example.com`, which
still starts with `*.` yet passes the subtree check and enters the returned
set (recon.py lines 59-63). -/
theorem fetch_crtsh_wildcard_survives :
    toPy (r"*.example.com") ∈
      fetch_crtsh (toPy (r"example.com"))
        (CrtResponse.response 200 (some [CrtRow.valid (toPy (r"*.*.example.com"))])) ∧
    (toPy (r"*.example.com")).take 2 = [42, 46] := by
  constructor
  · decide
  · decide

/-- C4 (corrected): every name in the set returned by `fetch_crtsh` either
equals the lower-cased target domain or ends with `"."` followed by the
lower-cased target domain (the comparison recon.py line 62 performs after
lower-casing the candidate); exactly one leading `*.` marker is stripped, so a
raw name with repeated wildcard prefixes can still carry a leading `*.`. -/
theorem fetch_crtsh_subtree (domain name : PyStr) (resp : CrtResponse)
    (h : name ∈ fetch_crtsh domain resp) :
    (46 :: pyLower domain).isSuffixOf name = true ∨ name = pyLower domain := by
  rcases mem_fetch_crtsh h with ⟨raw, _, hkeep⟩
  unfold crtKeep at hkeep
  rcases Bool.or_eq_true_iff.mp hkeep with h' | h'
  · exact Or.inl h'
  · exact Or.inr (by simpa using h')

/-- Witness for C4 (corrected) at a concrete input: the collected name
`a.example.com` ends with `.example.com`. -/
theorem fetch_crtsh_subtree_witness :
    (46 :: pyLower (toPy (r"example.com"))).isSuffixOf (toPy (r"a.example.com")) = true ∨
      toPy (r"a.example.com") = pyLower (toPy (r"example.com")) :=
  fetch_crtsh_subtree (toPy (r"example.com")) (toPy (r"a.example.com"))
    (CrtResponse.response 200 (some [CrtRow.valid (toPy (r"a.example.com"))])) (by decide)

/-! ### Lower-casing of collected candidates -/

theorem pyLower_append (a b : PyStr) : pyLower (a ++ b) = pyLower a ++ pyLower b :=
  List.map_append pyLowerChar a b

theorem default_subs_lower : ∀ s ∈ DEFAULT_SUBS, pyLower s = s := by decide

/-- An invocation hitting the wordlist path with an upper-case word. -/
def wordlistInput : RunInput :=
  ⟨toPy (r"example.com"), some [toPy (r"WWW")], true, false, fun _ _ => DnsOutcome.failure,
   CrtResponse.netFailure, fun _ => ProbeOutcome.exn (toPy (r"ConnectionError"))⟩

/-- An invocation using the built-in candidate list. -/
def defaultInput : RunInput :=
  ⟨toPy (r"example.com"), none, true, false, fun _ _ => DnsOutcome.failure,
   CrtResponse.netFailure, fun _ => ProbeOutcome.exn (toPy (r"ConnectionError"))⟩

/-- C5 as stated is false: `load_wordlist` strips but never lower-cases, so a
wordlist containing `WWW` puts the mixed-case candidate `WWW.example.com`
into the collected candidate set (recon.py lines 84-92 and 121-123). -/
theorem mainCandidates_uppercase_from_wordlist :
    toPy (r"WWW.example.com") ∈ mainCandidates wordlistInput ∧
      pyLower (toPy (r"WWW.example.com")) ≠ toPy (r"WWW.example.com") := by
  constructor
  · decide
  · decide

/-- C5 (corrected): candidates built from the built-in list and from the
crt.sh fetch are fully lower-cased (the built-in words are lower-case
literals, the normalized domain is lower-cased on recon.py line 104, and
crt.sh names are lower-cased on line 59); only wordlist-derived candidates
keep whatever case the wordlist file has. -/
theorem mainCandidates_lowercase (inp : RunInput) (hwl : inp.wordlistLines = none) :
    ∀ host ∈ mainCandidates inp, pyLower host = host := by
  intro host h
  rcases mem_mainCandidates h with ⟨s, hs, rfl⟩ | hct
  · have hsl : pyLower s = s := by
      have hb : mainBase inp = DEFAULT_SUBS := by simp [mainBase, hwl]
      rw [hb] at hs
      exact default_subs_lower s hs
    calc pyLower (s ++ 46 :: normalizeDomain inp.rawDomain)
        = pyLower s ++ pyLower (46 :: normalizeDomain inp.rawDomain) := pyLower_append _ _
      _ = s ++ 46 :: normalizeDomain inp.rawDomain := by
          rw [hsl, show pyLower (46 :: normalizeDomain inp.rawDomain) =
            46 :: pyLower (normalizeDomain inp.rawDomain) from rfl,
            pyLower_normalizeDomain]
  · rcases mem_fetch_crtsh hct with ⟨raw, heq, _⟩
    rw [heq]
    exact pyLower_crtNormalizeName raw

/-- Witness for C5 (corrected) at a concrete input: with no wordlist, the
candidate `www.example.com` is collected and is its own lower-casing. -/
theorem mainCandidates_lowercase_witness :
    pyLower (toPy (r"www.example.com")) = toPy (r"www.example.com") :=
  mainCandidates_lowercase defaultInput rfl (toPy (r"www.example.com")) (by decide)

/-! ### The HTTP probe -/

theorem probeGet_http_probe_https (o : HttpOracle) (host : PyStr) :
    probeGet (http_probe o host) (toPy (r"https")) =
      some (probeResultStr (o (probeUrl (toPy (r"https")) host))) := rfl

theorem probeGet_http_probe_http (o : HttpOracle) (host : PyStr) :
    probeGet (http_probe o host) (toPy (r"http")) =
      some (probeResultStr (o (probeUrl (toPy (r"http")) host))) := rfl

/-- C9: for every probed host, the probe tries the schemes in the fixed order
https then http and returns a result for each; each scheme's result is exactly
one of the two variants — `"<status> -> <final-url>"` when the request
succeeds, the error tag `"ERR (<exception-class>)"` when it fails — and each
scheme's result depends only on that scheme's request, so a failure for one
scheme never prevents or alters the probe of the other (recon.py lines 69-81). -/
theorem http_probe_schemes_and_isolation (o o' : HttpOracle) (host : PyStr) :
    ((http_probe o host).map Prod.fst = [toPy (r"https"), toPy (r"http")]) ∧
    (∀ p ∈ http_probe o host,
      (∃ st u, o (probeUrl p.1 host) = ProbeOutcome.ok st u ∧
        p.2 = toPy (Nat.repr st) ++ toPy (r" -> ") ++ u) ∨
      (∃ e, o (probeUrl p.1 host) = ProbeOutcome.exn e ∧
        p.2 = toPy (r"ERR (") ++ e ++ toPy (r")"))) ∧
    (o (probeUrl (toPy (r"https")) host) = o' (probeUrl (toPy (r"https")) host) →
      probeGet (http_probe o host) (toPy (r"https")) =
        probeGet (http_probe o' host) (toPy (r"https"))) ∧
    (o (probeUrl (toPy (r"http")) host) = o' (probeUrl (toPy (r"http")) host) →
      probeGet (http_probe o host) (toPy (r"http")) =
        probeGet (http_probe o' host) (toPy (r"http"))) := by
  refine ⟨rfl, ?_, ?_, ?_⟩
  · intro p hp
    simp only [http_probe, List.map_cons, List.map_nil, List.mem_cons,
      List.not_mem_nil, or_false] at hp
    rcases hp with rfl | rfl
    · cases ho : o (probeUrl (toPy (r"https")) host) with
      | ok st u => exact Or.inl ⟨st, u, rfl, by simp [probeResultStr, ho]⟩
      | exn e => exact Or.inr ⟨e, rfl, by simp [probeResultStr, ho]⟩
    · cases ho : o (probeUrl (toPy (r"http")) host) with
      | ok st u => exact Or.inl ⟨st, u, rfl, by simp [probeResultStr, ho]⟩
      | exn e => exact Or.inr ⟨e, rfl, by simp [probeResultStr, ho]⟩
  · intro h
    rw [probeGet_http_probe_https, probeGet_http_probe_https, h]
  · intro h
    rw [probeGet_http_probe_http, probeGet_http_probe_http, h]

/-- HTTP oracle answering the https request of `www.example.com` with a
redirect chain ending in a 301, failing everything else with a timeout. -/
def probeOracleA : HttpOracle := fun url =>
  if url == probeUrl (toPy (r"https")) (toPy (r"www.example.com")) then
    ProbeOutcome.ok 301 (toPy (r"https://www.example.com/login"))
  else ProbeOutcome.exn (toPy (r"ConnectTimeout"))

/-- Same https behavior as `probeOracleA` but a different failure elsewhere. -/
def probeOracleB : HttpOracle := fun url =>
  if url == probeUrl (toPy (r"https")) (toPy (r"www.example.com")) then
    ProbeOutcome.ok 301 (toPy (r"https://www.example.com/login"))
  else ProbeOutcome.exn (toPy (r"SSLError"))

/-- Witness for C9 at a concrete input: two runs whose http requests fail
differently still produce the same https probe result. -/
theorem http_probe_schemes_and_isolation_witness :
    probeGet (http_probe probeOracleA (toPy (r"www.example.com"))) (toPy (r"https")) =
      probeGet (http_probe probeOracleB (toPy (r"www.example.com"))) (toPy (r"https")) :=
  (http_probe_schemes_and_isolation probeOracleA probeOracleB
    (toPy (r"www.example.com"))).2.2.1 (by decide)

/-! ### Shape of the JSON report -/

theorem isRecordsObj_recordsJson (recs : List (RType × List PyStr)) :
    Json.isRecordsObj (recordsJson recs) = true := by
  unfold Json.isRecordsObj recordsJson
  apply List.all_eq_true.mpr
  intro x hx
  rcases List.mem_map.mp hx with ⟨p, _, rfl⟩
  show Json.isStrArr (Json.arr (p.2.map Json.str)) = true
  unfold Json.isStrArr
  apply List.all_eq_true.mpr
  intro y hy
  rcases List.mem_map.mp hy with ⟨v, _, rfl⟩
  rfl

/-- C8 as stated is false: the `results` dict is created with a fourth
top-level key `dns` (recon.py line 105) that is never removed, so the written
JSON document has top-level keys `domain`, `root`, `dns`, `subdomains` — not
only the three the claim lists. -/
theorem mainResults_extra_dns_key :
    Json.keys (mainResults defaultInput) ≠
      [toPy (r"domain"), toPy (r"root"), toPy (r"subdomains")] ∧
    toPy (r"dns") ∈ Json.keys (mainResults defaultInput) := by
  constructor
  · decide
  · decide

/-- C8 (corrected): the written JSON document has top-level keys `domain`,
`root`, `dns`, `subdomains` in that order and no others; `domain` holds the
normalized domain string, `root` an object mapping record type to an array of
strings, `dns` a vestigial always-empty object, and `subdomains` an object
mapping each kept hostname to an object with a `records` field (an object of
record-type arrays) plus an `http` field exactly when probing was requested
(recon.py lines 105, 108-115, 130-139, 164-166). -/
theorem mainResults_json_shape (inp : RunInput) :
    Json.keys (mainResults inp) =
      [toPy (r"domain"), toPy (r"root"), toPy (r"dns"), toPy (r"subdomains")] ∧
    Json.getField (mainResults inp) (toPy (r"domain")) =
      some (Json.str (normalizeDomain inp.rawDomain)) ∧
    Json.getField (mainResults inp) (toPy (r"dns")) = some (Json.obj []) ∧
    (∃ j, Json.getField (mainResults inp) (toPy (r"root")) = some j ∧
      Json.isRecordsObj j = true) ∧
    Json.getField (mainResults inp) (toPy (r"subdomains")) =
      some (Json.obj (mainSubdomains inp)) ∧
    (∀ p ∈ mainSubdomains inp,
      Json.keys p.2 =
        toPy (r"records") :: (if inp.probe then [toPy (r"http")] else []) ∧
      ∃ j, Json.getField p.2 (toPy (r"records")) = some j ∧
        Json.isRecordsObj j = true) := by
  refine ⟨rfl, rfl, rfl,
    ⟨recordsJson (rootRecords inp.dnsOracle (normalizeDomain inp.rawDomain)), rfl,
      isRecordsObj_recordsJson _⟩, rfl, ?_⟩
  intro p hp
  rcases List.mem_filterMap.mp hp with ⟨host, _, hsome⟩
  unfold subdomainEntry at hsome
  split at hsome
  · split at hsome
    · rename_i hpr
      cases hsome
      refine ⟨?_, recordsJson (resolve_host inp.dnsOracle host), rfl,
        isRecordsObj_recordsJson _⟩
      rw [if_pos hpr]
      rfl
    · rename_i hpr
      cases hsome
      refine ⟨?_, recordsJson (resolve_host inp.dnsOracle host), rfl,
        isRecordsObj_recordsJson _⟩
      rw [if_neg hpr]
      rfl
  · simp at hsome

/-- The single subdomain entry produced by the `exampleInput` run. -/
def exampleEntry : PyStr × Json :=
  (toPy (r"www.example.com"),
   Json.obj [(toPy (r"records"),
     recordsJson (resolve_host liveOracle (toPy (r"www.example.com"))))])

/-- Witness for C8 (corrected) at a concrete input: the one kept host of the
`exampleInput` run (probing off) has exactly the `records` key. -/
theorem mainResults_json_shape_witness :
    Json.keys exampleEntry.2 =
      toPy (r"records") :: (if exampleInput.probe then [toPy (r"http")] else []) :=
  ((mainResults_json_shape exampleInput).2.2.2.2.2 exampleEntry
    (by have hc : mainCandidates exampleInput = [toPy (r"www.example.com")] := by decide
        unfold mainSubdomains
        rw [hc, List.mergeSort_singleton]
        exact List.mem_singleton.mpr rfl)).1

/-! ### Normalization of the target domain -/

theorem dropWhile_append_all {p : Nat → Bool} :
    ∀ {w : PyStr} (s : PyStr), (∀ c ∈ w, p c = true) →
      (w ++ s).dropWhile p = s.dropWhile p := by
  intro w
  induction w with
  | nil => intro s _; rfl
  | cons c w ih =>
    intro s hw
    have hc : p c = true := hw c (List.mem_cons_self c w)
    rw [List.cons_append, List.dropWhile_cons, if_pos hc]
    exact ih s (fun x hx => hw x (List.mem_cons_of_mem c hx))

theorem dropWhile_append_of_ne_nil {p : Nat → Bool} :
    ∀ {s : PyStr} (w : PyStr), s.dropWhile p ≠ [] →
      (s ++ w).dropWhile p = s.dropWhile p ++ w := by
  intro s
  induction s with
  | nil => intro w h; exact absurd rfl h
  | cons c cs ih =>
    intro w h
    by_cases hc : p c = true
    · rw [List.dropWhile_cons, if_pos hc] at h
      rw [List.cons_append, List.dropWhile_cons, if_pos hc, List.dropWhile_cons, if_pos hc]
      exact ih w h
    · rw [List.cons_append, List.dropWhile_cons, if_neg hc, List.dropWhile_cons, if_neg hc]
      rfl

theorem pyStrip_of_no_trailing_space {s : PyStr}
    (H : ∀ c, s.getLast? = some c → isPySpace c = false) :
    pyStrip s = s.dropWhile isPySpace := by
  unfold pyStrip
  by_cases hnil : s.dropWhile isPySpace = []
  · rw [hnil]
    rfl
  · have hsuff : s.dropWhile isPySpace <:+ s := List.dropWhile_suffix _
    have hlast : (s.dropWhile isPySpace).getLast? = s.getLast? := by
      rcases hsuff with ⟨u, hu⟩
      conv_rhs => rw [← hu]
      rw [List.getLast?_append]
      cases hl : (s.dropWhile isPySpace).getLast? with
      | none => exact absurd (List.getLast?_eq_none_iff.mp hl) hnil
      | some c => simp
    cases hrev : (s.dropWhile isPySpace).reverse with
    | nil => exact absurd (List.reverse_eq_nil_iff.mp hrev) hnil
    | cons c rest =>
      have hc : isPySpace c = false := by
        apply H
        rw [← hlast, ← List.head?_reverse, hrev]
        rfl
      have hstep : List.dropWhile isPySpace (c :: rest) = c :: rest := by
        rw [List.dropWhile_cons, if_neg (by simp [hc])]
      rw [hstep, ← hrev, List.reverse_reverse]

theorem pyRstripDots_append_dot (x : PyStr) :
    pyRstripDots (x ++ [46]) = pyRstripDots x := by
  unfold pyRstripDots
  rw [List.reverse_append]
  rfl

theorem pyStrip_surrounding (w1 w2 s : PyStr)
    (h1 : ∀ c ∈ w1, isPySpace c = true) (h2 : ∀ c ∈ w2, isPySpace c = true) :
    pyStrip (w1 ++ s ++ w2) = pyStrip s := by
  unfold pyStrip
  rw [List.append_assoc, dropWhile_append_all (s ++ w2) h1]
  by_cases hnil : s.dropWhile isPySpace = []
  · rw [List.dropWhile_append]
    simp [hnil, List.dropWhile_eq_nil_iff.mpr h2]
  · rw [dropWhile_append_of_ne_nil w2 hnil, List.reverse_append,
      dropWhile_append_all ((s.dropWhile isPySpace).reverse)
        (fun c hc => h2 c (List.mem_reverse.mp hc))]

/-- C10 as stated is false in one corner: `main` strips whitespace before it
removes trailing dots (recon.py line 104), so the arguments `"a "` and
`"a ."` — which differ only by a trailing dot — normalize to different
domains (`"a"` versus `"a "`). -/
theorem normalizeDomain_trailing_dot_cex :
    toPy (r"a .") = toPy (r"a ") ++ [46] ∧
      normalizeDomain (toPy (r"a .")) ≠ normalizeDomain (toPy (r"a ")) := by
  constructor
  · decide
  · decide

/-- C10 (corrected): the target domain used throughout the run — root queries,
candidate construction, crt.sh filtering and the report's `domain` field all
receive `normalizeDomain inp.rawDomain` — is the argument with surrounding
whitespace stripped, then lower-cased, then trailing dots removed; two
invocations whose arguments differ only in case or only in surrounding
whitespace operate on the identical normalized domain, and appending a
trailing dot preserves the normalized domain provided the argument has no
trailing whitespace (with trailing whitespace the later dot shields it from
the strip, so the results differ). -/
theorem normalizeDomain_equiv (inp : RunInput) (s t w1 w2 : PyStr) :
    (Json.getField (mainResults inp) (toPy (r"domain")) =
      some (Json.str (normalizeDomain inp.rawDomain))) ∧
    (pyLower s = pyLower t → normalizeDomain s = normalizeDomain t) ∧
    ((∀ c ∈ w1, isPySpace c = true) → (∀ c ∈ w2, isPySpace c = true) →
      normalizeDomain (w1 ++ s ++ w2) = normalizeDomain s) ∧
    ((∀ c, s.getLast? = some c → isPySpace c = false) →
      normalizeDomain (s ++ [46]) = normalizeDomain s) := by
  refine ⟨rfl, ?_, ?_, ?_⟩
  · intro h
    unfold normalizeDomain
    rw [← pyLower_pyStrip, h, pyLower_pyStrip]
  · intro h1 h2
    unfold normalizeDomain
    rw [pyStrip_surrounding w1 w2 s h1 h2]
  · intro H
    cases s with
    | nil => decide
    | cons a t0 =>
      have hnil : (a :: t0).dropWhile isPySpace ≠ [] := by
        intro hdw
        have hall : ∀ x ∈ (a :: t0), isPySpace x = true :=
          List.dropWhile_eq_nil_iff.mp hdw
        have hlq : (a :: t0).getLast? =
            some ((a :: t0).getLast (List.cons_ne_nil a t0)) :=
          List.getLast?_eq_getLast _ _
        have hfalse := H _ hlq
        have htrue := hall _ (List.getLast_mem (List.cons_ne_nil a t0))
        rw [hfalse] at htrue
        exact Bool.false_ne_true htrue
      have h1 : pyStrip (a :: t0) = (a :: t0).dropWhile isPySpace :=
        pyStrip_of_no_trailing_space H
      have h2 : pyStrip ((a :: t0) ++ [46]) = (a :: t0).dropWhile isPySpace ++ [46] := by
        unfold pyStrip
        rw [dropWhile_append_of_ne_nil [46] hnil]
        simp [List.dropWhile_cons, isPySpace]
      unfold normalizeDomain
      rw [h1, h2, pyLower_append]
      rw [show pyLower [46] = [46] from rfl]
      rw [pyRstripDots_append_dot]

/-- Witness for C10 (corrected) at a concrete input: arguments differing only
in case normalize identically. -/
theorem normalizeDomain_equiv_witness :
    normalizeDomain (toPy (r"EXAMPLE.com")) = normalizeDomain (toPy (r"example.COM")) :=
  (normalizeDomain_equiv defaultInput (toPy (r"EXAMPLE.com")) (toPy (r"example.COM"))
    [] []).2.1 (by decide)
